import Mathlib

/-!
Verification development for the git-visualiser terminal commit browser.

The program's core (src/ui/mod.rs, src/cache/mod.rs, src/main.rs) is embedded
shallowly below.  Strings are modelled as lists of characters (`Str`) so that
every operation is an executable structural recursion; `strLit` injects a
string literal.  Rust's `SystemTime` is modelled as a `Nat` clock passed
explicitly to the cache operations.
-/

/-- Characters of a Rust `String` / `&str`, in order. -/
abbrev Str := List Char

/-- Character list of a string literal. -/
def strLit (s : String) : Str := s.data

/-- Rust `str::starts_with` on the `Str` model. -/
def startsWithL (p s : Str) : Bool := p.isPrefixOf s

/-- Rust `str::split(" ")`: split at every space, keeping empty pieces. -/
def splitSpace : Str → List Str
  | [] => [[]]
  | c :: rest =>
    match splitSpace rest, c == ' ' with
    | r, true => [] :: r
    | [], false => [[c]]
    | h :: t, false => (c :: h) :: t

/-- Fuel-driven loop of `trimStartMatchesL`: strip the pattern `p` from the
front as long as it matches (Rust `str::trim_start_matches` removes every
leading occurrence, not just one). -/
def stripAllAux (p : Str) : Nat → Str → Str
  | 0, s => s
  | Nat.succ n, s =>
    if startsWithL p s && !p.isEmpty then stripAllAux p n (s.drop p.length) else s

/-- Rust `str::trim_start_matches(pattern)`. -/
def trimStartMatchesL (p s : Str) : Str := stripAllAux p s.length s

/-- Rust `str::ends_with('%')`. -/
def endsWithPercent (s : Str) : Bool :=
  match s.reverse with
  | '%' :: _ => true
  | _ => false

/-- Rust `str::trim_end_matches('%')`: drop every trailing percent sign. -/
def trimEndPercentL (s : Str) : Str := (s.reverse.dropWhile (fun c => c == '%')).reverse

/-- Rust `usize::from_str`: optional leading plus sign, then one or more
decimal digits.  Overflow is not modelled (`Nat` is unbounded); no claim
depends on it. -/
def parseUsizeL (s : Str) : Option Nat :=
  let cs := if startsWithL (strLit "+") s then s.drop 1 else s
  if cs.isEmpty then none
  else if cs.all (fun c => c.isDigit) then
    some (cs.foldl (fun n c => n * 10 + (c.toNat - 48)) 0)
  else none

/-- Per-file change record pushed into `file_changes` by `draw_commit_details`
(src/ui/mod.rs): the tuple `(current_file, old_file, insertions, deletions,
change_type)`.  The change type is the literal string the code uses, one of
"renamed", "renamed+modified", "modified", "unchanged". -/
structure FileChange where
  new_path : Str
  old_path : Str
  insertions : Nat
  deletions : Nat
  kind : Str
deriving DecidableEq, Repr

/-- Accumulator state of the diff-parsing loop in `draw_commit_details`
(src/ui/mod.rs lines 237-245), plus the list of records emitted so far. -/
structure DiffAcc where
  current_file : Str
  old_file : Str
  insertions : Nat
  deletions : Nat
  is_rename : Bool
  similarity_index : Nat
  is_in_hunk : Bool
  has_content_change : Bool
  file_changes : List FileChange
deriving DecidableEq, Repr

/-- Initial accumulator (src/ui/mod.rs lines 237-245). -/
def initAcc : DiffAcc :=
  { current_file := [], old_file := [], insertions := 0, deletions := 0,
    is_rename := false, similarity_index := 0, is_in_hunk := false,
    has_content_change := false, file_changes := [] }

/-- Classification performed at flush time (src/ui/mod.rs lines 253-263 and
339-349; the two copies in the source are identical). -/
def changeType (a : DiffAcc) : Str :=
  if a.is_rename then
    if a.similarity_index = 100 then strLit "renamed" else strLit "renamed+modified"
  else if a.insertions > 0 || a.deletions > 0 || a.has_content_change then strLit "modified"
  else strLit "unchanged"

/-- The record pushed by a flush (src/ui/mod.rs line 265 and line 351). -/
def mkRecord (a : DiffAcc) : FileChange :=
  { new_path := a.current_file, old_path := a.old_file,
    insertions := a.insertions, deletions := a.deletions, kind := changeType a }

/-- Mid-loop flush at a `diff --git` line (src/ui/mod.rs lines 251-274): if
`current_file` is non-empty, push the record and reset the accumulator. -/
def flushMid (a : DiffAcc) : DiffAcc :=
  if a.current_file.isEmpty then a
  else
    { a with
      file_changes := a.file_changes ++ [mkRecord a],
      current_file := [], old_file := [], insertions := 0, deletions := 0,
      is_rename := false, is_in_hunk := false, similarity_index := 0,
      has_content_change := false }

/-- Parse of a `similarity index N%` line (src/ui/mod.rs lines 286-294 and
308-316): the prefix is stripped, and if the remainder ends with a percent
sign and parses as a `usize` the similarity index is recorded. -/
def setSimilarity (line : Str) (a : DiffAcc) : DiffAcc :=
  let p := line.drop (strLit "similarity index ").length
  if endsWithPercent p then
    { a with
      similarity_index := (parseUsizeL (trimEndPercentL p)).getD a.similarity_index }
  else a

/-- Look-ahead pass run on a cloned iterator right after a `diff --git`
header (src/ui/mod.rs lines 283-306): scans forward setting the rename flag,
similarity index and content-change flag, stopping at a hunk header or the
next `diff --git` line. -/
def peekFlags : List Str → DiffAcc → DiffAcc
  | [], a => a
  | l :: rest, a =>
    if startsWithL (strLit "similarity index ") l then peekFlags rest (setSimilarity l a)
    else if startsWithL (strLit "rename from") l || startsWithL (strLit "rename to") l then
      peekFlags rest { a with is_rename := true }
    else if startsWithL (strLit "--- ") l || startsWithL (strLit "+++ ") l then
      peekFlags rest { a with has_content_change := true }
    else if startsWithL (strLit "@@") l then { a with has_content_change := true }
    else if startsWithL (strLit "diff --git") l then a
    else peekFlags rest a

/-- Extraction of the old/new paths from a `diff --git a/X b/Y` header
(src/ui/mod.rs lines 276-281): split on spaces; if there are at least four
pieces, the third and fourth give the paths after stripping `a/` and `b/`.
With fewer pieces the paths keep their current values. -/
def headerPaths (line : Str) (a : DiffAcc) : DiffAcc :=
  let parts := splitSpace line
  if parts.length ≥ 4 then
    { a with
      old_file := trimStartMatchesL (strLit "a/") (parts.getD 2 []),
      current_file := trimStartMatchesL (strLit "b/") (parts.getD 3 []) }
  else a

/-- One iteration of the line loop of `draw_commit_details` (src/ui/mod.rs
lines 249-335).  `rest` is the remaining input, needed because the
`diff --git` branch clones the iterator for its look-ahead. -/
def stepLine (line : Str) (rest : List Str) (a : DiffAcc) : DiffAcc :=
  if startsWithL (strLit "diff --git") line then
    peekFlags rest (headerPaths line (flushMid a))
  else if startsWithL (strLit "similarity index ") line then setSimilarity line a
  else if startsWithL (strLit "rename from") line then
    { a with
      is_rename := true,
      old_file := trimStartMatchesL (strLit "rename from ") line }
  else if startsWithL (strLit "rename to") line then
    { a with
      is_rename := true,
      current_file := trimStartMatchesL (strLit "rename to ") line }
  else if startsWithL (strLit "--- ") line || startsWithL (strLit "+++ ") line then
    { a with has_content_change := true }
  else if startsWithL (strLit "@@") line then
    { a with is_in_hunk := true, has_content_change := true }
  else if a.is_in_hunk && startsWithL (strLit "+") line && !startsWithL (strLit "+++") line then
    { a with insertions := a.insertions + 1 }
  else if a.is_in_hunk && startsWithL (strLit "-") line && !startsWithL (strLit "---") line then
    { a with deletions := a.deletions + 1 }
  else a

/-- The whole `while let Some(line) = lines_iter.next()` loop. -/
def processLines : List Str → DiffAcc → DiffAcc
  | [], a => a
  | line :: rest, a => processLines rest (stepLine line rest a)

/-- End-of-input flush (src/ui/mod.rs lines 337-352): push the last record if
a new path is present. -/
def finalRecords (a : DiffAcc) : List FileChange :=
  if a.current_file.isEmpty then a.file_changes
  else a.file_changes ++ [mkRecord a]

/-- The diff summarizer: the file-change records `draw_commit_details`
extracts from a diff text, given as its list of lines. -/
def summarize (ls : List Str) : List FileChange :=
  finalRecords (processLines ls initAcc)

/-- Number of lines beginning with `diff --git` in the input. -/
def countDiffGit (ls : List Str) : Nat :=
  (ls.filter (fun l => startsWithL (strLit "diff --git") l)).length

/-- Cursor weight of the accumulator: 1 when a new path is pending, 0
otherwise.  A flush emits exactly this many records. -/
def paddOf (a : DiffAcc) : Nat := if a.current_file.isEmpty then 0 else 1

/-- The four change-type strings the flush classification can produce. -/
def kindOk (k : Str) : Prop :=
  k = strLit "renamed" ∨ k = strLit "renamed+modified" ∨
  k = strLit "modified" ∨ k = strLit "unchanged"

/-- Diff used against claim C4: a `rename to` line ahead of the first header
seeds the accumulator, so the run emits two records from one header. -/
def c4demoBad : List Str := [strLit "rename to x", strLit "diff --git a/p b/q"]

/-- Well-formed one-file diff used by the C4 witness. -/
def c4demoGood : List Str :=
  [strLit "diff --git a/f b/f", strLit "@@ -1,1 +1,1 @@", strLit "-a", strLit "+b"]

/-- New-file diff section used against claim C5. -/
def c5demo : List Str :=
  [strLit "diff --git a/f b/f", strLit "new file mode 100644",
   strLit "--- /dev/null", strLit "+++ b/f", strLit "@@ -0,0 +1 @@", strLit "+x"]

/-- Rename section whose header paths differ from its rename-line paths,
used against claim C6. -/
def c6demo : List Str :=
  [strLit "diff --git a/X b/Y", strLit "rename from A", strLit "rename to B"]

/-- The pure-rename diff of claim C7. -/
def c7renameOnly : List Str :=
  [strLit "diff --git a/a b/b", strLit "similarity index 100%",
   strLit "rename from a", strLit "rename to b"]

/-- The rename-plus-edit diff of claim C7. -/
def c7renameMod : List Str :=
  [strLit "diff --git a/a b/b", strLit "similarity index 80%",
   strLit "rename from a", strLit "rename to b",
   strLit "@@ -1,1 +1,1 @@", strLit "-x", strLit "+y"]

/-- Commit record produced by the git collaborator (src/models.rs). -/
structure CommitInfo where
  hash : Str
  message : Str
  author : Str
  date : Str
  diff : Option Str
deriving DecidableEq, Repr

/-- The interactive browse state (src/ui/mod.rs lines 17-28).  `commits` is a
`VecDeque<CommitInfo>` in the source, modelled as a list; `usize` indices are
`Nat`. -/
structure App where
  commits : List CommitInfo
  selected_index : Nat
  author_filter : Option Str
  current_branch : Str
  branches : List Str
  search_mode : Bool
  search_query : Str
  show_author_filter : Bool
  show_branch_selector : Bool
  branch_selector_index : Nat
deriving DecidableEq, Repr

/-- `App::toggle_author_filter` (src/ui/mod.rs lines 46-51): flips the flag;
the body of the `if` is an unimplemented TODO. -/
def toggle_author_filter (a : App) : App :=
  { a with show_author_filter := !a.show_author_filter }

/-- `App::toggle_branch_selector` (src/ui/mod.rs lines 53-61): flips the flag
and, when it becomes set, resynchronizes the selector cursor to the position
of the current branch (0 if absent). -/
def toggle_branch_selector (a : App) : App :=
  let a1 : App := { a with show_branch_selector := !a.show_branch_selector }
  if a1.show_branch_selector then
    { a1 with
      branch_selector_index :=
        (a1.branches.findIdx? (fun b => b == a1.current_branch)).getD 0 }
  else a1

/-- `App::select_branch` (src/ui/mod.rs lines 63-71): with an in-bounds index
it switches `current_branch` and the cursor and returns true, otherwise it
leaves the state unchanged and returns false. -/
def select_branch (a : App) (index : Nat) : App × Bool :=
  if index < a.branches.length then
    ({ a with
       current_branch := a.branches.getD index [],
       branch_selector_index := index }, true)
  else (a, false)

/-- `App::navigate_branch_selector` (src/ui/mod.rs lines 73-78).  The i32
arithmetic cannot overflow for the ±1 directions the loop passes, so `Int` is
used directly. -/
def navigate_branch_selector (a : App) (direction : Int) : App :=
  let new_index : Int := (a.branch_selector_index : Int) + direction
  if 0 ≤ new_index ∧ new_index < (a.branches.length : Int) then
    { a with branch_selector_index := new_index.toNat }
  else a

/-- `App::start_search` (src/ui/mod.rs lines 80-82). -/
def start_search (a : App) : App := { a with search_mode := true }

/-- `App::navigate_up` (src/ui/mod.rs lines 84-88). -/
def navigate_up (a : App) : App :=
  if a.selected_index > 0 then { a with selected_index := a.selected_index - 1 } else a

/-- `App::navigate_down` (src/ui/mod.rs lines 90-94): `commits.len().saturating_sub(1)`
is `Nat` subtraction. -/
def navigate_down (a : App) : App :=
  if a.selected_index < a.commits.length - 1 then
    { a with selected_index := a.selected_index + 1 }
  else a

/-- `App::navigate_left` (src/ui/mod.rs lines 96-98): TODO in the source. -/
def navigate_left (a : App) : App := a

/-- `App::navigate_right` (src/ui/mod.rs lines 100-102): TODO in the source. -/
def navigate_right (a : App) : App := a

/-- The three screens `draw_ui` can paint (src/ui/mod.rs lines 105-132). -/
inductive ViewMode where
  | commitList
  | branchSelector
  | authorFilter
deriving DecidableEq, Repr

/-- Which screen `draw_ui` paints (src/ui/mod.rs lines 105-132): the branch
selector when its flag is set, else the author filter when its flag is set,
else the two-pane commit list. -/
def rendered_view (a : App) : ViewMode :=
  if a.show_branch_selector then ViewMode.branchSelector
  else if a.show_author_filter then ViewMode.authorFilter
  else ViewMode.commitList

/-- A cache entry (src/cache/mod.rs lines 7-11); `SystemTime` is a `Nat`
clock value. -/
structure CacheEntry (T : Type) where
  data : T
  timestamp : Nat
deriving DecidableEq, Repr

/-- The result cache (src/cache/mod.rs lines 13-18): three independent
`HashMap`s, modelled as association lists, plus the shared duration.
`PathBuf` keys are modelled as `Str`. -/
structure Cache where
  commits : List (Str × CacheEntry (List CommitInfo))
  authors : List (Str × CacheEntry (List Str))
  branches : List (Str × CacheEntry (List Str))
  cache_duration : Nat
deriving DecidableEq

/-- Key lookup in one namespace (`HashMap::get`). -/
def mapLookup {T : Type} (m : List (Str × CacheEntry T)) (k : Str) : Option (CacheEntry T) :=
  (m.find? (fun p => p.1 == k)).map (fun p => p.2)

/-- Key insertion in one namespace (`HashMap::insert`): unconditionally
replaces any entry with the same key. -/
def mapInsert {T : Type} (m : List (Str × CacheEntry T)) (k : Str) (e : CacheEntry T) :
    List (Str × CacheEntry T) :=
  (k, e) :: m.filter (fun p => !(p.1 == k))

/-- `Cache::new` (src/cache/mod.rs lines 21-28): empty namespaces, 300-second
default duration. -/
def Cache.new : Cache := ⟨[], [], [], 300⟩

/-- `SystemTime::elapsed` relative to the explicit clock `now`: fails (Err)
when the stored timestamp lies in the future. -/
def elapsedSince (now ts : Nat) : Option Nat :=
  if ts ≤ now then some (now - ts) else none

/-- The freshness test `entry.timestamp.elapsed().unwrap_or(Duration::MAX) <
self.cache_duration` shared by the three getters: when `elapsed` fails the
comparison is `Duration::MAX < cache_duration`, which is false for every
representable duration, so a future timestamp behaves as a miss. -/
def isFresh (dur now ts : Nat) : Bool :=
  match elapsedSince now ts with
  | some d => decide (d < dur)
  | none => false

/-- `Cache::get_commits` (src/cache/mod.rs lines 30-38). -/
def Cache.get_commits (c : Cache) (branch : Str) (now : Nat) : Option (List CommitInfo) :=
  (mapLookup c.commits branch).bind
    (fun e => if isFresh c.cache_duration now e.timestamp then some e.data else none)

/-- `Cache::set_commits` (src/cache/mod.rs lines 40-48). -/
def Cache.set_commits (c : Cache) (branch : Str) (v : List CommitInfo) (now : Nat) : Cache :=
  { c with commits := mapInsert c.commits branch ⟨v, now⟩ }

/-- `Cache::get_authors` (src/cache/mod.rs lines 50-58). -/
def Cache.get_authors (c : Cache) (repo_path : Str) (now : Nat) : Option (List Str) :=
  (mapLookup c.authors repo_path).bind
    (fun e => if isFresh c.cache_duration now e.timestamp then some e.data else none)

/-- `Cache::set_authors` (src/cache/mod.rs lines 60-68). -/
def Cache.set_authors (c : Cache) (repo_path : Str) (v : List Str) (now : Nat) : Cache :=
  { c with authors := mapInsert c.authors repo_path ⟨v, now⟩ }

/-- `Cache::get_branches` (src/cache/mod.rs lines 70-78). -/
def Cache.get_branches (c : Cache) (repo_path : Str) (now : Nat) : Option (List Str) :=
  (mapLookup c.branches repo_path).bind
    (fun e => if isFresh c.cache_duration now e.timestamp then some e.data else none)

/-- `Cache::set_branches` (src/cache/mod.rs lines 80-88). -/
def Cache.set_branches (c : Cache) (repo_path : Str) (v : List Str) (now : Nat) : Cache :=
  { c with branches := mapInsert c.branches repo_path ⟨v, now⟩ }

/-- `Cache::clear` (src/cache/mod.rs lines 90-94): empties the three
namespaces (the duration is kept). -/
def Cache.clear (c : Cache) : Cache := { c with commits := [], authors := [], branches := [] }

/-- The `KeyCode::Enter` arm of the main loop (src/main.rs lines 151-167),
with the `GitManager::get_commits` collaborator abstracted as `fetch` and the
`cache` local of `main` threaded through.  The returned `Bool` records
whether the collaborator was invoked.  The source never touches the cache on
this path (the `Cache` built at src/main.rs line 51 is never used again), so
the cache component is returned unchanged. -/
def handle_enter (fetch : Str → Except Str (List CommitInfo)) (app : App) (cache : Cache) :
    App × Cache × Bool :=
  if app.show_branch_selector then
    let sb := select_branch app app.branch_selector_index
    if sb.2 then
      match fetch sb.1.current_branch with
      | Except.ok new_commits =>
        ({ sb.1 with
           commits := new_commits, selected_index := 0,
           show_branch_selector := false }, cache, true)
      | Except.error _ =>
        ({ sb.1 with show_branch_selector := false }, cache, true)
    else (sb.1, cache, false)
  else (app, cache, false)

/-- Key events of the main loop (src/main.rs lines 130-173). -/
inductive KeyCode where
  | char : Char → KeyCode
  | up
  | down
  | left
  | right
  | enter
  | esc
deriving DecidableEq, Repr

/-- The key dispatch of the main loop (src/main.rs lines 130-173).  `'q'`
breaks the loop, leaving the state as is.  Unlisted keys are ignored. -/
def handle_key (fetch : Str → Except Str (List CommitInfo)) (k : KeyCode) (app : App)
    (cache : Cache) : App × Cache :=
  match k with
  | KeyCode.char c =>
    if c = 'q' then (app, cache)
    else if c = 'a' then (toggle_author_filter app, cache)
    else if c = 'b' then (toggle_branch_selector app, cache)
    else if c = '/' then (start_search app, cache)
    else (app, cache)
  | KeyCode.up =>
    (if app.show_branch_selector then navigate_branch_selector app (-1) else navigate_up app,
     cache)
  | KeyCode.down =>
    (if app.show_branch_selector then navigate_branch_selector app 1 else navigate_down app,
     cache)
  | KeyCode.left => (navigate_left app, cache)
  | KeyCode.right => (navigate_right app, cache)
  | KeyCode.enter => ((handle_enter fetch app cache).1, (handle_enter fetch app cache).2.1)
  | KeyCode.esc => ({ app with show_branch_selector := false, show_author_filter := false }, cache)

/-- Commit fixture: tip of branch `main`. -/
def commitA : CommitInfo :=
  ⟨strLit "1111", strLit "first commit", strLit "Dev <dev@x>",
   strLit "2024-01-01 10:00:00", none⟩

/-- Commit fixture: tip of branch `dev`. -/
def commitB : CommitInfo :=
  ⟨strLit "2222", strLit "dev tip", strLit "Dev <dev@x>",
   strLit "2024-01-02 10:00:00", none⟩

/-- Fixture state as the loop enters: commit list of `main` shown, no overlay. -/
def appInit : App :=
  { commits := [commitA], selected_index := 0, author_filter := none,
    current_branch := strLit "main", branches := [strLit "main", strLit "dev"],
    search_mode := false, search_query := [], show_author_filter := false,
    show_branch_selector := false, branch_selector_index := 0 }

/-- Fixture state with the branch selector open and `dev` highlighted. -/
def appSel : App := { appInit with show_branch_selector := true, branch_selector_index := 1 }

/-- Collaborator that answers every commit query with the `dev` tip. -/
def okFetch : Str → Except Str (List CommitInfo) := fun _ => Except.ok [commitB]

/-- Collaborator whose commit query fails with a repository error. -/
def failFetch : Str → Except Str (List CommitInfo) :=
  fun _ => Except.error (strLit "object not found")

/-- Cache fixture holding a fresh entry for branch `dev` stored at time 0. -/
def freshCache : Cache := Cache.new.set_commits (strLit "dev") [commitB] 0

/-- Fixture: empty commit list with the cursor already at 0. -/
def appEmptyZero : App := { appInit with commits := [], selected_index := 0 }

/-- Fixture: empty commit list but a positive cursor. -/
def appEmptyOne : App := { appInit with commits := [], selected_index := 1 }

/-- Cache fixture whose three namespaces each hold an entry stamped at time
10 under key `main`. -/
def futureCache : Cache :=
  ((Cache.new.set_commits (strLit "main") [commitA] 10).set_authors
    (strLit "main") [strLit "Dev"] 10).set_branches (strLit "main") [strLit "main"] 10

lemma paddOf_le_one (a : DiffAcc) : paddOf a ≤ 1 := by
  unfold paddOf; split_ifs <;> omega

lemma finalRecords_length (a : DiffAcc) :
    (finalRecords a).length = a.file_changes.length + paddOf a := by
  unfold finalRecords paddOf; split_ifs <;> simp

lemma setSimilarity_file_changes (line : Str) (a : DiffAcc) :
    (setSimilarity line a).file_changes = a.file_changes := by
  unfold setSimilarity
  dsimp only
  split_ifs <;> rfl

lemma setSimilarity_current_file (line : Str) (a : DiffAcc) :
    (setSimilarity line a).current_file = a.current_file := by
  unfold setSimilarity
  dsimp only
  split_ifs <;> rfl

lemma peekFlags_file_changes (ls : List Str) (a : DiffAcc) :
    (peekFlags ls a).file_changes = a.file_changes := by
  induction ls generalizing a with
  | nil => rfl
  | cons l rest ih =>
    unfold peekFlags
    split_ifs <;> simp [ih, setSimilarity_file_changes]

lemma headerPaths_file_changes (line : Str) (a : DiffAcc) :
    (headerPaths line a).file_changes = a.file_changes := by
  unfold headerPaths
  dsimp only
  split_ifs <;> rfl

lemma flushMid_file_changes_length (a : DiffAcc) :
    (flushMid a).file_changes.length = a.file_changes.length + paddOf a := by
  unfold flushMid paddOf; split_ifs <;> simp

lemma stepLine_dg (line : Str) (rest : List Str) (a : DiffAcc)
    (hd : startsWithL (strLit "diff --git") line = true) :
    (stepLine line rest a).file_changes.length = a.file_changes.length + paddOf a := by
  unfold stepLine
  rw [if_pos hd, peekFlags_file_changes, headerPaths_file_changes,
    flushMid_file_changes_length]

lemma stepLine_file_changes_eq (line : Str) (rest : List Str) (a : DiffAcc)
    (hd : startsWithL (strLit "diff --git") line = false) :
    (stepLine line rest a).file_changes = a.file_changes := by
  unfold stepLine
  split_ifs with h1 h2 h3 h4 h5 h6 h7 h8
  · simp [hd] at h1
  · exact setSimilarity_file_changes line a
  · rfl
  · rfl
  · rfl
  · rfl
  · rfl
  · rfl
  · rfl

lemma stepLine_current_file_eq (line : Str) (rest : List Str) (a : DiffAcc)
    (hd : startsWithL (strLit "diff --git") line = false)
    (ht : startsWithL (strLit "rename to") line = false) :
    (stepLine line rest a).current_file = a.current_file := by
  unfold stepLine
  split_ifs with h1 h2 h3 h4 h5 h6 h7 h8
  · simp [hd] at h1
  · exact setSimilarity_current_file line a
  · rfl
  · simp [ht] at h4
  · rfl
  · rfl
  · rfl
  · rfl
  · rfl

lemma countDiffGit_cons (l : Str) (rest : List Str) :
    countDiffGit (l :: rest) =
      (if startsWithL (strLit "diff --git") l = true then 1 else 0) + countDiffGit rest := by
  unfold countDiffGit
  rw [List.filter_cons]
  split_ifs <;> simp [Nat.add_comm]

lemma processLines_bound (ls : List Str) : ∀ (a : DiffAcc) (c : Nat),
    a.file_changes.length + paddOf a ≤ c →
    a.file_changes.length < c →
    (finalRecords (processLines ls a)).length ≤ c + countDiffGit ls := by
  induction ls with
  | nil =>
    intro a c h1 h2
    simp only [processLines, countDiffGit, List.filter_nil, List.length_nil, Nat.add_zero]
    rw [finalRecords_length]
    exact h1
  | cons l rest ih =>
    intro a c h1 h2
    simp only [processLines]
    rw [countDiffGit_cons]
    by_cases hd : startsWithL (strLit "diff --git") l = true
    · have hstep := stepLine_dg l rest a hd
      have hp := paddOf_le_one (stepLine l rest a)
      have hrec := ih (stepLine l rest a) (c + 1) (by omega) (by omega)
      rw [if_pos hd]
      omega
    · have hb : startsWithL (strLit "diff --git") l = false := by simpa using hd
      have hstep := stepLine_file_changes_eq l rest a hb
      have hlen : (stepLine l rest a).file_changes.length = a.file_changes.length := by
        rw [hstep]
      have hp := paddOf_le_one (stepLine l rest a)
      have hrec := ih (stepLine l rest a) c (by omega) (by omega)
      rw [if_neg hd]
      omega

lemma processLines_clean (ls : List Str) : ∀ (a : DiffAcc),
    a.file_changes = [] → a.current_file = [] →
    (∀ l ∈ ls.takeWhile (fun l => !startsWithL (strLit "diff --git") l),
        startsWithL (strLit "rename to") l = false) →
    (finalRecords (processLines ls a)).length ≤ countDiffGit ls := by
  induction ls with
  | nil =>
    intro a hrec hcur _
    simp [processLines, countDiffGit, finalRecords, hcur, hrec]
  | cons l rest ih =>
    intro a hrec hcur hpre
    simp only [processLines]
    rw [countDiffGit_cons]
    by_cases hd : startsWithL (strLit "diff --git") l = true
    · have hstep := stepLine_dg l rest a hd
      have hpadd : paddOf a = 0 := by simp [paddOf, hcur]
      have hlen : a.file_changes.length = 0 := by simp [hrec]
      have hp := paddOf_le_one (stepLine l rest a)
      have hrec2 := processLines_bound rest (stepLine l rest a) 1 (by omega) (by omega)
      rw [if_pos hd]
      omega
    · have hb : startsWithL (strLit "diff --git") l = false := by simpa using hd
      have htw : (l :: rest).takeWhile (fun l => !startsWithL (strLit "diff --git") l) =
          l :: rest.takeWhile (fun l => !startsWithL (strLit "diff --git") l) := by
        simp [List.takeWhile_cons, hb]
      have hrt : startsWithL (strLit "rename to") l = false := by
        apply hpre
        rw [htw]
        exact List.mem_cons_self _ _
      have h1 := stepLine_file_changes_eq l rest a hb
      have h2 := stepLine_current_file_eq l rest a hb hrt
      have hrec2 := ih (stepLine l rest a) (h1.trans hrec) (h2.trans hcur)
        (fun x hx => hpre x (by rw [htw]; exact List.mem_cons_of_mem l hx))
      rw [if_neg hd]
      omega

lemma changeType_kindOk (a : DiffAcc) : kindOk (changeType a) := by
  unfold changeType kindOk
  split_ifs <;> simp

lemma stepLine_file_changes_cases (line : Str) (rest : List Str) (a : DiffAcc) :
    (stepLine line rest a).file_changes = a.file_changes ∨
    (stepLine line rest a).file_changes = a.file_changes ++ [mkRecord a] := by
  unfold stepLine
  split_ifs with h1 h2 h3 h4 h5 h6 h7 h8
  · rw [peekFlags_file_changes, headerPaths_file_changes]
    unfold flushMid
    split_ifs <;> simp
  · left; exact setSimilarity_file_changes line a
  · left; rfl
  · left; rfl
  · left; rfl
  · left; rfl
  · left; rfl
  · left; rfl
  · left; rfl

lemma processLines_kindOk (ls : List Str) : ∀ (a : DiffAcc),
    (∀ r ∈ a.file_changes, kindOk r.kind) →
    ∀ r ∈ finalRecords (processLines ls a), kindOk r.kind := by
  induction ls with
  | nil =>
    intro a ha r hr
    unfold finalRecords at hr
    split_ifs at hr
    · exact ha r hr
    · rcases List.mem_append.mp hr with h | h
      · exact ha r h
      · simp only [List.mem_singleton] at h
        subst h
        exact changeType_kindOk a
  | cons l rest ih =>
    intro a ha
    simp only [processLines]
    apply ih
    rcases stepLine_file_changes_cases l rest a with h | h <;> rw [h]
    · exact ha
    · intro r hr
      rcases List.mem_append.mp hr with h2 | h2
      · exact ha r h2
      · simp only [List.mem_singleton] at h2
        subst h2
        exact changeType_kindOk a

lemma select_branch_of_lt (a : App) (i : Nat) (h : i < a.branches.length) :
    select_branch a i =
      ({ a with current_branch := a.branches.getD i [], branch_selector_index := i }, true) := by
  unfold select_branch
  rw [if_pos h]

lemma select_branch_of_ge (a : App) (i : Nat) (h : ¬ i < a.branches.length) :
    select_branch a i = (a, false) := by
  unfold select_branch
  rw [if_neg h]

lemma handle_enter_cache_unchanged (fetch : Str → Except Str (List CommitInfo)) (app : App)
    (cache : Cache) : (handle_enter fetch app cache).2.1 = cache := by
  unfold handle_enter
  split
  · dsimp only
    split
    · split <;> rfl
    · rfl
  · rfl

lemma handle_enter_calls_fetch (fetch : Str → Except Str (List CommitInfo)) (app : App)
    (cache : Cache) (hs : app.show_branch_selector = true)
    (hi : app.branch_selector_index < app.branches.length) :
    (handle_enter fetch app cache).2.2 = true := by
  unfold handle_enter
  rw [if_pos hs]
  dsimp only
  rw [select_branch_of_lt app _ hi]
  dsimp only
  rw [if_pos (rfl : true = true)]
  split <;> rfl

/-- Claim C1 (counterexample): confirming the selection of branch `dev` with
a cache that holds a fresh entry for `dev` (a get at time 10 hits, well
within the 300-second duration) still invokes the external collaborator, and
the cache comes back unchanged — on a miss (empty cache) the fetched list is
not stored either.  The branch-switch path never consults or updates the
cache. -/
theorem c1_counterexample :
    freshCache.get_commits (strLit "dev") 10 = some [commitB] ∧
    (handle_enter okFetch appSel freshCache).2.2 = true ∧
    (handle_enter okFetch appSel freshCache).2.1 = freshCache ∧
    (handle_enter okFetch appSel Cache.new).2.1 = Cache.new := by decide

/-- Claim C1 (amended): on a confirmed branch selection the commit list is
always re-fetched directly from the external collaborator; the Result Cache
is never consulted and never written on this path — `handle_enter` returns
the cache unchanged for every input, and calls the collaborator whenever the
selector is open with an in-bounds index. -/
theorem c1_amended (fetch : Str → Except Str (List CommitInfo)) (app : App) (cache : Cache) :
    (handle_enter fetch app cache).2.1 = cache ∧
    (app.show_branch_selector = true → app.branch_selector_index < app.branches.length →
      (handle_enter fetch app cache).2.2 = true) :=
  ⟨handle_enter_cache_unchanged fetch app cache,
   fun hs hi => handle_enter_calls_fetch fetch app cache hs hi⟩

/-- Witness for `c1_amended` at a concrete confirmed selection. -/
theorem c1_amended_witness :
    (handle_enter okFetch appSel freshCache).2.1 = freshCache ∧
    (handle_enter okFetch appSel freshCache).2.2 = true :=
  ⟨(c1_amended okFetch appSel freshCache).1,
   (c1_amended okFetch appSel freshCache).2 rfl (by decide)⟩

/-- Claim C2 (counterexample): with the selector open on `dev` and a failing
re-fetch, the Enter handler still closes the selector (the state does not
remain in BranchSelector), and it leaves `current_branch = "dev"` while the
displayed commits are still those of `main` — an inconsistent pairing. -/
theorem c2_counterexample :
    appSel.show_branch_selector = true ∧
    (handle_enter failFetch appSel Cache.new).1.show_branch_selector = false ∧
    (handle_enter failFetch appSel Cache.new).1.current_branch = strLit "dev" ∧
    (handle_enter failFetch appSel Cache.new).1.commits = [commitA] ∧
    (handle_enter failFetch appSel Cache.new).1.current_branch ≠ appSel.current_branch := by
  decide

/-- Claim C2 (amended): if the re-fetch triggered by a confirmed in-bounds
branch selection fails, the loop survives but the selector overlay is closed
(back to the CommitList rendering), `current_branch` has already been
switched to the newly selected branch, and the commit list and selection are
left as they were (they still belong to the previous branch); the cache is
untouched. -/
theorem c2_amended (fetch : Str → Except Str (List CommitInfo)) (app : App) (cache : Cache)
    (msg : Str) (hs : app.show_branch_selector = true)
    (hi : app.branch_selector_index < app.branches.length)
    (hf : fetch (app.branches.getD app.branch_selector_index []) = Except.error msg) :
    (handle_enter fetch app cache).1.show_branch_selector = false ∧
    (handle_enter fetch app cache).1.current_branch =
      app.branches.getD app.branch_selector_index [] ∧
    (handle_enter fetch app cache).1.commits = app.commits ∧
    (handle_enter fetch app cache).1.selected_index = app.selected_index ∧
    (handle_enter fetch app cache).2.1 = cache := by
  unfold handle_enter
  rw [if_pos hs]
  dsimp only
  rw [select_branch_of_lt app _ hi]
  dsimp only
  rw [hf]
  exact ⟨rfl, rfl, rfl, rfl, rfl⟩

/-- Witness for `c2_amended` at a concrete failing re-fetch. -/
theorem c2_amended_witness :
    (handle_enter failFetch appSel Cache.new).1.show_branch_selector = false ∧
    (handle_enter failFetch appSel Cache.new).1.current_branch =
      appSel.branches.getD appSel.branch_selector_index [] ∧
    (handle_enter failFetch appSel Cache.new).1.commits = appSel.commits ∧
    (handle_enter failFetch appSel Cache.new).1.selected_index = appSel.selected_index ∧
    (handle_enter failFetch appSel Cache.new).2.1 = Cache.new :=
  c2_amended failFetch appSel Cache.new (strLit "object not found") rfl (by decide) rfl

/-- Claim C3 (counterexample): from the initial state (CommitList rendering,
`selected_index = 0`), pressing `a` (toggle author filter) and then `b`
(toggle branch selector) reaches a state in which BOTH overlay flags are set
simultaneously: the two flags are independent booleans and neither toggle
clears the other. -/
theorem c3_counterexample :
    appInit.show_author_filter = false ∧ appInit.show_branch_selector = false ∧
    appInit.selected_index = 0 ∧
    (handle_key failFetch (KeyCode.char 'b')
        (handle_key failFetch (KeyCode.char 'a') appInit Cache.new).1 Cache.new).1.show_author_filter
      = true ∧
    (handle_key failFetch (KeyCode.char 'b')
        (handle_key failFetch (KeyCode.char 'a') appInit Cache.new).1 Cache.new).1.show_branch_selector
      = true := by decide

/-- Claim C3 (amended): although both overlay flags can be set at once in
reachable states, the renderer displays exactly one view at a time: the
branch selector whenever its flag is set (taking priority), else the author
filter whenever its flag is set, else the commit list. -/
theorem c3_amended (a : App) :
    (rendered_view a = ViewMode.branchSelector ↔ a.show_branch_selector = true) ∧
    (rendered_view a = ViewMode.authorFilter ↔
      (a.show_branch_selector = false ∧ a.show_author_filter = true)) ∧
    (rendered_view a = ViewMode.commitList ↔
      (a.show_branch_selector = false ∧ a.show_author_filter = false)) := by
  cases hb : a.show_branch_selector <;> cases ha : a.show_author_filter <;>
    simp [rendered_view, hb, ha]

/-- Claim C4 (counterexample): the input consisting of the line `rename to x`
followed by the single header `diff --git a/p b/q` contains one `diff --git`
line but the summarizer emits two FileChange records, so "at most N" fails. -/
theorem c4_counterexample :
    (summarize c4demoBad).length = 2 ∧ countDiffGit c4demoBad = 1 := by decide

/-- Claim C4 (amended): the summarizer emits at most N + 1 records for an
input with N `diff --git` lines, and at most N whenever no `rename to` line
occurs before the first `diff --git` line (in particular for all well-formed
diffs). -/
theorem c4_amended (ls : List Str) :
    (summarize ls).length ≤ countDiffGit ls + 1 ∧
    ((∀ l ∈ ls.takeWhile (fun l => !startsWithL (strLit "diff --git") l),
        startsWithL (strLit "rename to") l = false) →
      (summarize ls).length ≤ countDiffGit ls) := by
  constructor
  · have h := processLines_bound ls initAcc 1 (by simp [initAcc, paddOf]) (by simp [initAcc])
    simpa [summarize, Nat.add_comm] using h
  · intro h
    exact processLines_clean ls initAcc rfl rfl h

/-- Witness for `c4_amended` at a concrete well-formed diff. -/
theorem c4_amended_witness :
    (summarize c4demoGood).length ≤ countDiffGit c4demoGood :=
  (c4_amended c4demoGood).2 (by decide)

/-- Claim C5 (counterexample): a section with a `new file mode` line and a
content change is emitted with kind "modified", not a newly-added kind; the
code has no branch recognizing `new file mode` lines at all. -/
theorem c5_counterexample :
    (summarize c5demo).map (fun r => r.kind) = [strLit "modified"] ∧
    strLit "modified" ≠ strLit "added" := by decide

/-- Claim C5 (amended): every record the summarizer emits has one of the four
kinds "renamed", "renamed+modified", "modified", "unchanged" — an Added kind
is never produced — and the concrete new-file section of `c5demo` is emitted
as "modified" with one insertion. -/
theorem c5_amended :
    (∀ (ls : List Str), ∀ r ∈ summarize ls, kindOk r.kind) ∧
    summarize c5demo = [⟨strLit "f", strLit "f", 1, 0, strLit "modified"⟩] := by
  constructor
  · intro ls r hr
    refine processLines_kindOk ls initAcc ?_ r hr
    intro r hr
    simp [initAcc] at hr
  · decide

/-- Witness for `c5_amended` at a concrete record of a concrete run. -/
theorem c5_amended_witness :
    kindOk (FileChange.mk (strLit "f") (strLit "f") 1 0 (strLit "modified")).kind :=
  c5_amended.1 c5demo _ (by decide)

/-- Claim C6 (counterexample): with old/new paths X, Y already set from the
header, the `rename from A` / `rename to B` lines overwrite them: the emitted
record carries paths A and B, not X and Y. -/
theorem c6_counterexample :
    summarize c6demo = [⟨strLit "B", strLit "A", 0, 0, strLit "renamed+modified"⟩] := by
  decide

/-- Claim C6 (amended): a `rename from <path>` line sets the rename flag and
unconditionally overwrites the recorded old path, and a `rename to <path>`
line sets the flag and unconditionally overwrites the recorded new path,
whether or not the paths were already set from the header line. -/
theorem c6_amended (a : DiffAcc) (line : Str) (rest : List Str)
    (hdg : startsWithL (strLit "diff --git") line = false)
    (hsim : startsWithL (strLit "similarity index ") line = false) :
    (startsWithL (strLit "rename from") line = true →
      stepLine line rest a =
        { a with
          is_rename := true,
          old_file := trimStartMatchesL (strLit "rename from ") line }) ∧
    (startsWithL (strLit "rename from") line = false →
      startsWithL (strLit "rename to") line = true →
      stepLine line rest a =
        { a with
          is_rename := true,
          current_file := trimStartMatchesL (strLit "rename to ") line }) := by
  constructor
  · intro hrf
    unfold stepLine
    rw [if_neg (by simp [hdg]), if_neg (by simp [hsim]), if_pos hrf]
  · intro hrf hrt
    unfold stepLine
    rw [if_neg (by simp [hdg]), if_neg (by simp [hsim]), if_neg (by simp [hrf]), if_pos hrt]

/-- Witness for `c6_amended`: the overwrite observed on a concrete
accumulator whose paths were already set from a header. -/
theorem c6_amended_witness :
    stepLine (strLit "rename from A") [] (headerPaths (strLit "diff --git a/X b/Y") initAcc) =
      { headerPaths (strLit "diff --git a/X b/Y") initAcc with
        is_rename := true,
        old_file := trimStartMatchesL (strLit "rename from ") (strLit "rename from A") } :=
  (c6_amended (headerPaths (strLit "diff --git a/X b/Y") initAcc) (strLit "rename from A") []
    (by decide) (by decide)).1 (by decide)

/-- Claim C7: a flushed section with the rename flag set is emitted as
"renamed" exactly when the recorded similarity index is 100, and otherwise as
"renamed+modified"; the two concrete diffs of the claim produce exactly the
records it states. -/
theorem c7_rename_classification :
    (∀ a : DiffAcc, a.is_rename = true →
      ((mkRecord a).kind = strLit "renamed" ↔ a.similarity_index = 100) ∧
      (¬ a.similarity_index = 100 → (mkRecord a).kind = strLit "renamed+modified")) ∧
    summarize c7renameOnly = [⟨strLit "b", strLit "a", 0, 0, strLit "renamed"⟩] ∧
    summarize c7renameMod = [⟨strLit "b", strLit "a", 1, 1, strLit "renamed+modified"⟩] := by
  refine ⟨?_, by decide, by decide⟩
  intro a h
  show (changeType a = strLit "renamed" ↔ a.similarity_index = 100) ∧
    (¬ a.similarity_index = 100 → changeType a = strLit "renamed+modified")
  unfold changeType
  rw [if_pos h]
  by_cases hs : a.similarity_index = 100
  · rw [if_pos hs]
    exact ⟨⟨fun _ => hs, fun _ => rfl⟩, fun hx => absurd hs hx⟩
  · rw [if_neg hs]
    refine ⟨⟨fun hx => absurd hx (by decide), fun hx => absurd hx hs⟩, fun _ => rfl⟩

/-- Witness for `c7_rename_classification` on a concrete rename
accumulator. -/
theorem c7_rename_classification_witness :
    ((mkRecord { initAcc with is_rename := true, similarity_index := 100 }).kind =
        strLit "renamed" ↔
      ({ initAcc with is_rename := true, similarity_index := 100 } : DiffAcc).similarity_index =
        100) ∧
    (¬ ({ initAcc with is_rename := true, similarity_index := 100 } : DiffAcc).similarity_index =
        100 →
      (mkRecord { initAcc with is_rename := true, similarity_index := 100 }).kind =
        strLit "renamed+modified") :=
  c7_rename_classification.1 { initAcc with is_rename := true, similarity_index := 100 } rfl

/-- Claim C8 (counterexample): on a state with an empty commit list but
`selected_index = 1`, `navigate_up` is not a no-op — it decrements the index,
because its guard only checks `selected_index > 0` and never looks at
`commits`. -/
theorem c8_counterexample :
    appEmptyOne.commits = [] ∧ navigate_up appEmptyOne ≠ appEmptyOne := by decide

/-- Claim C8 (amended): with non-empty commits and an in-bounds index, both
navigation moves keep the index in bounds (clamped); with empty commits the
moves are no-ops provided `selected_index = 0` (the configuration the
program establishes whenever it installs a commit list); unconditionally,
`navigate_up` decrements any positive index, even when commits is empty. -/
theorem c8_amended (a : App) :
    (a.commits ≠ [] → a.selected_index < a.commits.length →
      ((navigate_up a).selected_index < a.commits.length ∧
       (navigate_down a).selected_index < a.commits.length)) ∧
    (a.commits = [] → a.selected_index = 0 → navigate_up a = a ∧ navigate_down a = a) ∧
    (0 < a.selected_index → (navigate_up a).selected_index = a.selected_index - 1) := by
  refine ⟨?_, ?_, ?_⟩
  · intro _ hlt
    constructor
    · unfold navigate_up
      split_ifs with h
      · show a.selected_index - 1 < a.commits.length
        omega
      · exact hlt
    · unfold navigate_down
      split_ifs with h
      · show a.selected_index + 1 < a.commits.length
        omega
      · exact hlt
  · intro hempty hzero
    constructor
    · unfold navigate_up
      rw [if_neg (by omega)]
    · unfold navigate_down
      rw [if_neg (by rw [hempty, hzero]; simp)]
  · intro hpos
    unfold navigate_up
    rw [if_pos hpos]

/-- Witness for `c8_amended` on concrete states. -/
theorem c8_amended_witness :
    ((navigate_up appInit).selected_index < appInit.commits.length ∧
     (navigate_down appInit).selected_index < appInit.commits.length) ∧
    (navigate_up appEmptyZero = appEmptyZero ∧ navigate_down appEmptyZero = appEmptyZero) ∧
    (navigate_up appEmptyOne).selected_index = appEmptyOne.selected_index - 1 :=
  ⟨(c8_amended appInit).1 (by decide) (by decide),
   (c8_amended appEmptyZero).2.1 rfl rfl,
   (c8_amended appEmptyOne).2.2 (by decide)⟩

/-- Claim C9: per keyspace, a set followed by a get that is strictly within
`cache_duration` returns exactly the stored value; a get at or past the
duration is a miss and the stale entry is still present in the map (gets
never delete); after a clear every get in all three keyspaces misses. -/
theorem c9_cache_contract (c : Cache) (k : Str) (v : List CommitInfo) (w : List Str)
    (now1 now2 : Nat) :
    (now1 ≤ now2 → now2 - now1 < c.cache_duration →
      ((c.set_commits k v now1).get_commits k now2 = some v ∧
       (c.set_authors k w now1).get_authors k now2 = some w ∧
       (c.set_branches k w now1).get_branches k now2 = some w)) ∧
    (now1 ≤ now2 → c.cache_duration ≤ now2 - now1 →
      ((c.set_commits k v now1).get_commits k now2 = none ∧
       mapLookup (c.set_commits k v now1).commits k = some ⟨v, now1⟩ ∧
       (c.set_authors k w now1).get_authors k now2 = none ∧
       mapLookup (c.set_authors k w now1).authors k = some ⟨w, now1⟩ ∧
       (c.set_branches k w now1).get_branches k now2 = none ∧
       mapLookup (c.set_branches k w now1).branches k = some ⟨w, now1⟩)) ∧
    (∀ (k2 : Str) (n : Nat),
      (Cache.clear c).get_commits k2 n = none ∧
      (Cache.clear c).get_authors k2 n = none ∧
      (Cache.clear c).get_branches k2 n = none) := by
  refine ⟨?_, ?_, ?_⟩
  · intro h1 h2
    refine ⟨?_, ?_, ?_⟩ <;>
      simp [Cache.set_commits, Cache.get_commits, Cache.set_authors, Cache.get_authors,
        Cache.set_branches, Cache.get_branches, mapInsert, mapLookup, List.find?,
        isFresh, elapsedSince, h1, h2]
  · intro h1 h2
    have h3 : ¬ (now2 - now1 < c.cache_duration) := Nat.not_lt.mpr h2
    refine ⟨?_, ?_, ?_, ?_, ?_, ?_⟩ <;>
      simp [Cache.set_commits, Cache.get_commits, Cache.set_authors, Cache.get_authors,
        Cache.set_branches, Cache.get_branches, mapInsert, mapLookup, List.find?,
        isFresh, elapsedSince, h1, h3]
  · intro k2 n
    refine ⟨?_, ?_, ?_⟩ <;>
      simp [Cache.clear, Cache.get_commits, Cache.get_authors, Cache.get_branches, mapLookup]

/-- Witness for `c9_cache_contract`: fresh hit at 100 s, miss at 300 s with
the stale entry kept, and misses after clear, on concrete stores. -/
theorem c9_cache_contract_witness :
    ((Cache.new.set_commits (strLit "main") [commitA] 0).get_commits (strLit "main") 100 =
       some [commitA] ∧
     (Cache.new.set_authors (strLit "main") [strLit "Dev"] 0).get_authors (strLit "main") 100 =
       some [strLit "Dev"] ∧
     (Cache.new.set_branches (strLit "main") [strLit "Dev"] 0).get_branches (strLit "main") 100 =
       some [strLit "Dev"]) ∧
    ((Cache.new.set_commits (strLit "main") [commitA] 0).get_commits (strLit "main") 300 =
       none ∧
     mapLookup (Cache.new.set_commits (strLit "main") [commitA] 0).commits (strLit "main") =
       some ⟨[commitA], 0⟩) ∧
    ((Cache.clear Cache.new).get_commits (strLit "x") 7 = none ∧
     (Cache.clear Cache.new).get_authors (strLit "x") 7 = none ∧
     (Cache.clear Cache.new).get_branches (strLit "x") 7 = none) :=
  ⟨(c9_cache_contract Cache.new (strLit "main") [commitA] [strLit "Dev"] 0 100).1
      (by decide) (by decide),
   ⟨((c9_cache_contract Cache.new (strLit "main") [commitA] [strLit "Dev"] 0 300).2.1
      (by decide) (by decide)).1,
    ((c9_cache_contract Cache.new (strLit "main") [commitA] [strLit "Dev"] 0 300).2.1
      (by decide) (by decide)).2.1⟩,
   (c9_cache_contract Cache.new (strLit "main") [commitA] [strLit "Dev"] 0 100).2.2
      (strLit "x") 7⟩

/-- Claim C10: an entry whose timestamp lies in the future of the current
clock (elapsed-time computation fails) is treated as expired by all three
getters: they return a miss rather than failing or returning the data. -/
theorem c10_future_timestamp (c : Cache) (k : Str) (now : Nat)
    (e1 : CacheEntry (List CommitInfo)) (e2 e3 : CacheEntry (List Str)) :
    (mapLookup c.commits k = some e1 → now < e1.timestamp →
      c.get_commits k now = none) ∧
    (mapLookup c.authors k = some e2 → now < e2.timestamp →
      c.get_authors k now = none) ∧
    (mapLookup c.branches k = some e3 → now < e3.timestamp →
      c.get_branches k now = none) := by
  refine ⟨?_, ?_, ?_⟩ <;> intro hl hf <;>
    simp [Cache.get_commits, Cache.get_authors, Cache.get_branches, hl, isFresh,
      elapsedSince, Nat.not_le.mpr hf]

/-- Witness for `c10_future_timestamp`: the clock reads 5 but the entries are
stamped 10; every getter misses. -/
theorem c10_future_timestamp_witness :
    futureCache.get_commits (strLit "main") 5 = none ∧
    futureCache.get_authors (strLit "main") 5 = none ∧
    futureCache.get_branches (strLit "main") 5 = none :=
  ⟨(c10_future_timestamp futureCache (strLit "main") 5 ⟨[commitA], 10⟩ ⟨[strLit "Dev"], 10⟩
      ⟨[strLit "main"], 10⟩).1 (by decide) (by decide),
   (c10_future_timestamp futureCache (strLit "main") 5 ⟨[commitA], 10⟩ ⟨[strLit "Dev"], 10⟩
      ⟨[strLit "main"], 10⟩).2.1 (by decide) (by decide),
   (c10_future_timestamp futureCache (strLit "main") 5 ⟨[commitA], 10⟩ ⟨[strLit "Dev"], 10⟩
      ⟨[strLit "main"], 10⟩).2.2 (by decide) (by decide)⟩
